import Mathlib

/-!
Verification development for an ORM core: WHERE-clause synthesis from
primary keys and unique indices (impl.go and sqlbuilder.go), INSERT and
UPDATE column selection, batch INSERT column-set locking
(buildInsertManySQL), schema invariants for auto-increment columns, and
the reflective row fetcher (fetch/obj.go).

Go maps (`m.Cols`, `m.UniqueIndexes`) are modelled as association lists;
their (unspecified) iteration order is the list order.  Driver and
buffer operations that cannot fail in the modelled fragment (bytes.Buffer
writes, rows.Columns, rows.Scan) are modelled as total functions.
-/

deriving instance DecidableEq for Except

namespace Orm

/-- Driver-level values stored in record fields (the `interface{}` results
of `reflect.Value.Interface()` compared against cached zeros). -/
inductive Val where
  | int (n : Int)
  | str (s : String)
  | bool (b : Bool)
deriving DecidableEq

/-- One column of a compiled model (core.Column).  `zero` is the cached
zero value of the column's Go type (`col.Zero`, equal to
`reflect.Zero(col.GoType).Interface()`). -/
structure Column where
  name : String
  goName : String
  isAI : Bool
  hasDefault : Bool
  zero : Val
deriving DecidableEq

/-- A compiled model (core.Model).  `cols` models the map `m.Cols`
(column name → column) and `uniqueIndexes` the map `m.UniqueIndexes`
(index name → columns), both as association lists whose order stands for
the map iteration order. -/
structure Model where
  name : String
  cols : List Column
  pk : List Column
  uniqueIndexes : List (String × List Column)

/-- A record value: Go field name → value (what `rval.FieldByName` and
`.Interface()` yield); a missing entry models an invalid field. -/
abbrev RVal := List (String × Val)

/-- Error kinds of the modelled operations (spec §7 taxonomy; the Go code
returns `errors.New`/`fmt.Errorf` values of these kinds). -/
inductive Err where
  | invalidKind
  | noWhereKey
  | noColumns
  | hetBatch
  | hookFailed
  | schema
  | fieldNotFound (goName : String)
  | colNotFound (name : String)
  | dupField (name : String)
deriving DecidableEq

/-- Model of `rval.FieldByName(goName)`: `none` models an invalid `reflect.Value`. -/
def fieldByName : RVal → String → Option Val
  | [], _ => none
  | (k, v) :: rest, g => if k = g then some v else fieldByName rest g

/-- Lookup `m.Cols[name]` (buildInsertManySQL's `m.Cols[name]`). -/
def findCol : List Column → String → Option Column
  | [], _ => none
  | c :: cs, n => if c.name = n then some c else findCol cs n

/-- Helper of `checkCols`: every column's field is valid and non-zero. -/
def colsAllNonzero : List Column → RVal → Bool
  | [], _ => true
  | col :: cols, rval =>
    match fieldByName rval col.goName with
    | none => false
    | some v => if v = col.zero then false else colsAllNonzero cols rval

/-- impl.go `checkCols`: false on an empty column list, otherwise true
iff every column's field is valid and differs from its type's zero. -/
def checkCols (cols : List Column) (rval : RVal) : Bool :=
  match cols with
  | [] => false
  | _ => colsAllNonzero cols rval

/-- Inner loop of sqlbuilder.go `getKV`: collect keys and values of all
columns, failing (with the accumulators reset) on an invalid or zero
field. -/
def getKVgo : RVal → List Column → Option (List String × List Val)
  | _, [] => some ([], [])
  | rval, col :: cols =>
    match fieldByName rval col.goName with
    | none => none
    | some v =>
      if v = col.zero then none
      else
        match getKVgo rval cols with
        | none => none
        | some (ks, vs) => some (col.name :: ks, v :: vs)

/-- sqlbuilder.go `where`'s `getKV` closure: `none` for an empty column
list or when some column's field is invalid or equals the cached zero. -/
def getKV (rval : RVal) (cols : List Column) : Option (List String × List Val) :=
  match cols with
  | [] => none
  | _ => getKVgo rval cols

/-- First unique index whose `getKV` succeeds, in iteration order
(sqlbuilder.go `where`'s `for _, cols := range m.UniqueIndexes` loop). -/
def firstKV (rval : RVal) : List (String × List Column) → Option (List String × List Val)
  | [] => none
  | (_, cols) :: rest =>
    match getKV rval cols with
    | some kv => some kv
    | none => firstKV rval rest

/-- First unique index passing `checkCols`, in iteration order
(impl.go `where`'s `for _, cols := range m.UniqueIndexes` loop). -/
def firstCheck (rval : RVal) : List (String × List Column) → Option (List Column)
  | [] => none
  | (_, cols) :: rest =>
    if checkCols cols rval then some cols else firstCheck rval rest

/-- The `\x7bname\x7d` marker the sqlbuilder-based code writes around
identifiers. -/
def braceWrap (s : String) : String := "\x7b" ++ s ++ "\x7d"

/-- Conditions handed to `sql.WhereStmt().And("\x7bkey\x7d=?", val)` by
sqlbuilder.go `where`, one per collected key. -/
def whereConds (ks : List String) (vs : List Val) : List (String × Val) :=
  (ks.zip vs).map (fun kv => (braceWrap kv.1 ++ "=?", kv.2))

/-- sqlbuilder.go `where`: primary key first; if its `getKV` fails, the
first unique index whose `getKV` succeeds; error when no keys result. -/
def whereSQLB (m : Model) (rval : RVal) : Except Err (List (String × Val)) :=
  match getKV rval m.pk with
  | some (ks, vs) => .ok (whereConds ks vs)
  | none =>
    match firstKV rval m.uniqueIndexes with
    | some (ks, vs) => .ok (whereConds ks vs)
    | none => .error .noWhereKey

/-- Modelled from the spec: the sqlbuilder package (not under src)
renders a `WhereStmt` by joining the accumulated `And` conditions with
`AND` ("emit `PK_col=? AND …`"). -/
def andJoin (conds : List (String × Val)) : String :=
  String.intercalate " AND " (conds.map (fun c => c.1))

/-- Values appended for a column list (`rval.FieldByName(...).Interface()`
per column; all fields are valid whenever this is reached). -/
def colVals (rval : RVal) (cols : List Column) : List Val :=
  cols.filterMap (fun col => fieldByName rval col.goName)

/-- impl.go `where`, primary-key branch: per column it writes
`quote(col.Name)` then `=?` — and nothing between two conditions. -/
def pkCondsImpl (quote : String → String) : List Column → String
  | [] => ""
  | col :: cols => quote col.name ++ "=?" ++ pkCondsImpl quote cols

/-- impl.go `where`, unique-index branch: per column it writes
`quote(col.Name)`, `=?` and `" AND "`; the caller truncates the last
five characters. -/
def uniqueCondsImpl (quote : String → String) : List Column → String
  | [] => ""
  | col :: cols => quote col.name ++ "=?" ++ " AND " ++ uniqueCondsImpl quote cols

/-- impl.go `where`: the ` WHERE …` suffix appended to the statement
buffer together with the argument values, or an error when neither the
primary key nor any unique index qualifies. -/
def whereImpl (quote : String → String) (m : Model) (rval : RVal) :
    Except Err (String × List Val) :=
  if checkCols m.pk rval then
    .ok (" WHERE " ++ pkCondsImpl quote m.pk, colVals rval m.pk)
  else
    match firstCheck rval m.uniqueIndexes with
    | some cols =>
      .ok ((" WHERE " ++ uniqueCondsImpl quote cols).dropRight 5, colVals rval cols)
    | none => .error .noWhereKey

/-- sqlbuilder.go `insert`'s column walk: for each column of `m.Cols`,
error on an invalid field; skip a zero value when the column is AI or
has a default; otherwise emit the `KeyValue("\x7bname\x7d", v)` pair. -/
def insertKV (rval : RVal) : List Column → Except Err (List (String × Val))
  | [] => .ok []
  | col :: cols =>
    match fieldByName rval col.goName with
    | none => .error (.fieldNotFound col.goName)
    | some v =>
      if v = col.zero ∧ (col.isAI ∨ col.hasDefault) then insertKV rval cols
      else
        match insertKV rval cols with
        | .error e => .error e
        | .ok rest => .ok ((braceWrap col.name, v) :: rest)

/-- impl.go `insertMult`'s per-record column walk: the `keys`/`vals`
accumulators, with the same zero-and-(AI-or-default) filter. -/
def insertMultKV (rval : RVal) : List Column → Except Err (List String × List Val)
  | [] => .ok ([], [])
  | col :: cols =>
    match fieldByName rval col.goName with
    | none => .error (.fieldNotFound col.goName)
    | some v =>
      if v = col.zero ∧ (col.isAI ∨ col.hasDefault) then insertMultKV rval cols
      else
        match insertMultKV rval cols with
        | .error e => .error e
        | .ok (ks, vs) => .ok (col.name :: ks, v :: vs)

/-- impl.go `insertMult`, per record: build the INSERT statement, or fail
with the no-columns error when the column walk kept nothing. -/
def insertMultSQL (quote : String → String) (pfx : String) (m : Model) (rval : RVal) :
    Except Err (String × List Val) :=
  match insertMultKV rval m.cols with
  | .error e => .error e
  | .ok ([], _) => .error .noColumns
  | .ok (keys, vals) =>
    .ok ("INSERT INTO " ++ quote (pfx ++ m.name) ++ "(" ++
          String.intercalate "," (keys.map quote) ++ ")VALUES(" ++
          String.intercalate "," (vals.map (fun _ => "?")) ++ ")",
         vals)

/-- sqlbuilder.go `inStrSlice`. -/
def inStrSlice (key : String) : List String → Bool
  | [] => false
  | v :: rest => if v = key then true else inStrSlice key rest

/-- sqlbuilder.go `update`'s column walk: error on an invalid field; skip
a zero value not named in the `cols` allow-list; otherwise emit the
`Set("\x7bname\x7d", v)` pair. -/
def updateSet (rval : RVal) (allow : List String) : List Column → Except Err (List (String × Val))
  | [] => .ok []
  | col :: cols =>
    match fieldByName rval col.goName with
    | none => .error (.fieldNotFound col.goName)
    | some v =>
      if ¬ inStrSlice col.name allow ∧ v = col.zero then updateSet rval allow cols
      else
        match updateSet rval allow cols with
        | .error e => .error e
        | .ok rest => .ok ((braceWrap col.name, v) :: rest)

/-- sqlbuilder.go `update`: the built statement (SET pairs and WHERE
conditions) that `sql.Exec()` would run, or the first error. -/
def update (m : Model) (rval : RVal) (allow : List String) :
    Except Err (List (String × Val) × List (String × Val)) :=
  match updateSet rval allow m.cols with
  | .error e => .error e
  | .ok sets =>
    match whereSQLB m rval with
    | .error e => .error e
    | .ok conds => .ok (sets, conds)

/-- impl.go `updateMult`'s column walk (no allow-list): skip zero values;
emit the `quote(name)=?,` fragment and the value otherwise. -/
def updateMultSet (quote : String → String) (rval : RVal) :
    List Column → Except Err (List String × List Val)
  | [] => .ok ([], [])
  | col :: cols =>
    match fieldByName rval col.goName with
    | none => .error (.fieldNotFound col.goName)
    | some v =>
      if v = col.zero then updateMultSet quote rval cols
      else
        match updateMultSet quote rval cols with
        | .error e => .error e
        | .ok (fs, vs) => .ok ((quote col.name ++ "=?,") :: fs, v :: vs)

/-- impl.go `updateMult`, per record: `UPDATE t SET …` with the last
buffer character truncated, then the `where` suffix; values are the SET
values followed by the WHERE values. -/
def updateMultSQL (quote : String → String) (pfx : String) (m : Model) (rval : RVal) :
    Except Err (String × List Val) :=
  match updateMultSet quote rval m.cols with
  | .error e => .error e
  | .ok (fs, vs) =>
    match whereImpl quote m rval with
    | .error e => .error e
    | .ok (wsql, wvals) =>
      .ok ((("UPDATE " ++ quote (pfx ++ m.name) ++ " SET " ++ String.join fs).dropRight 1)
             ++ wsql,
           vs ++ wvals)

/-- An element of the batch-INSERT argument array: the record's reflect
type identity (`irval.Type()`) and its value. -/
structure BObj where
  rtype : String
  rval : RVal

/-- buildInsertManySQL, first record: the `KeyValue` pairs and the `keys`
list fixing the column set, with the zero-and-(AI-or-default) filter. -/
def firstInsertCols (rval : RVal) : List Column → Except Err (List (String × Val) × List String)
  | [] => .ok ([], [])
  | col :: cols =>
    match fieldByName rval col.goName with
    | none => .error (.fieldNotFound col.goName)
    | some v =>
      if v = col.zero ∧ (col.isAI ∨ col.hasDefault) then firstInsertCols rval cols
      else
        match firstInsertCols rval cols with
        | .error e => .error e
        | .ok (kvs, ks) => .ok ((braceWrap col.name, v) :: kvs, col.name :: ks)

/-- buildInsertManySQL, later records: walk the first record's `keys`;
error on a missing column or field; a zero value on an AI-or-default
column is skipped (`continue`) and contributes nothing to the tuple. -/
def manyRestVals (m : Model) (rval : RVal) : List String → Except Err (List Val)
  | [] => .ok []
  | name :: names =>
    match findCol m.cols name with
    | none => .error (.colNotFound name)
    | some col =>
      match fieldByName rval col.goName with
      | none => .error (.fieldNotFound col.goName)
      | some v =>
        if v = col.zero ∧ (col.isAI ∨ col.hasDefault) then manyRestVals m rval names
        else
          match manyRestVals m rval names with
          | .error e => .error e
          | .ok vals => .ok (v :: vals)

/-- buildInsertManySQL, loop over the records after the first: reject a
record whose type differs from the first's, otherwise collect its
`Values(...)` tuple. -/
def manyLoop (modelOf : String → Model) (t0 : String) (keys : List String) :
    List BObj → Except Err (List (List Val))
  | [] => .ok []
  | o :: os =>
    if o.rtype ≠ t0 then .error .hetBatch
    else
      match manyRestVals (modelOf o.rtype) o.rval keys with
      | .error e => .error e
      | .ok vals =>
        match manyLoop modelOf t0 keys os with
        | .error e => .error e
        | .ok tuples => .ok (vals :: tuples)

/-- sqlbuilder.go `buildInsertManySQL`: the table marker, the first
record's `KeyValue` pairs, and the later records' values tuples.
`modelOf` stands for the model registry keyed by record type. -/
def buildInsertManySQL (modelOf : String → Model) :
    List BObj → Except Err (String × List (String × Val) × List (List Val))
  | [] => .ok ("", [], [])
  | o :: os =>
    match firstInsertCols o.rval (modelOf o.rtype).cols with
    | .error e => .error e
    | .ok (kvs, keys) =>
      match manyLoop modelOf o.rtype keys os with
      | .error e => .error e
      | .ok tuples => .ok ("\x7b#" ++ (modelOf o.rtype).name ++ "\x7d", kvs, tuples)

/-- Schema-compiler view of a column, as far as the AI/nullable
invariant is concerned (core's column.go is not under src; only its
tests are). -/
structure SColumn where
  nullable : Bool
  hasDefault : Bool
  intType : Bool
deriving DecidableEq

/-- Schema-compiler view of a model under construction: its columns and
the index of the AI column, if any. -/
structure SModel where
  cols : List SColumn
  ai : Option Nat
deriving DecidableEq

/-- Modelled from the spec: the argument grammar of the `nullable`
property — no argument means true, one argument in {true, T, 1} (case
insensitive) means true and in {false, 0} means false, anything else is
a schema error (spec §4.1; column.go's `setNullable` is not under src,
column_test.go exercises exactly these cases). -/
def parseNullableArg : List String → Except Err Bool
  | [] => .ok true
  | [a] =>
    if a.toLower = "true" ∨ a.toLower = "t" ∨ a.toLower = "1" then .ok true
    else if a.toLower = "false" ∨ a.toLower = "0" then .ok false
    else .error .schema
  | _ => .error .schema

/-- Modelled from the spec: `Column.setNullable` — declaring `nullable`
on the model's AI column is a schema error ("An AI column cannot also be
declared nullable", §3 invariant 5; column_test.go lines 64-69);
otherwise the parsed argument sets the flag. -/
def setNullable (m : SModel) (i : Nat) (args : List String) : Except Err SModel :=
  if m.ai = some i then .error .schema
  else
    match parseNullableArg args with
    | .error e => .error e
    | .ok b =>
      match m.cols.get? i with
      | none => .error .schema
      | some c => .ok { m with cols := m.cols.set i { c with nullable := b } }

/-- Modelled from the spec: `Model.setAI` — a column with a default, a
nullable column, more than two arguments, or a non-integer column cannot
become AI (spec §3 invariants 2 and 5; model_test.go `TestModel_setAI`
checks the conditions in this order); otherwise the column becomes the
model's AI column. -/
def setAI (m : SModel) (i : Nat) (args : List String) : Except Err SModel :=
  match m.cols.get? i with
  | none => .error .schema
  | some c =>
    if c.hasDefault then .error .schema
    else if c.nullable then .error .schema
    else if args.length > 2 then .error .schema
    else if ¬ c.intType then .error .schema
    else .ok { m with ai := some i }

/-- The invariant of spec §3: the AI column of a model is never
nullable. -/
def aiNotNullable (m : SModel) : Prop :=
  ∀ i c, m.ai = some i → m.cols.get? i = some c → c.nullable = false

end Orm

namespace Fetch

/-- Errors of the fetch package reuse the shared taxonomy. -/
abbrev Err := Orm.Err

/-- A driver scalar, as delivered by `rows.Scan` into a bound field. -/
inductive Scalar where
  | int (n : Int)
  | str (s : String)
  | null
deriving DecidableEq

/-- The `orm` struct tag of a field, as far as `getName` reads it: no
tag, a tag starting with `-`, a tag with a `name(s)` property, or a tag
with neither (tags.Get is outside src; only these shapes matter). -/
inductive OrmTag where
  | noTag
  | ignored
  | named (s : String)
  | other
deriving DecidableEq

mutual
/-- A reflect-level Go value as the fetcher sees it: a scalar, a nil
pointer (carrying the zero value `reflect.New` would create for its
pointee type), a non-nil pointer, or a struct. -/
inductive Fv : Type where
  | scalar (v : Scalar) : Fv
  | nilPtr (z : Fv) : Fv
  | ptr (v : Fv) : Fv
  | strct (fs : Flds) : Fv
deriving DecidableEq

/-- The field list of a struct value, in declaration order. -/
inductive Flds : Type where
  | nil : Flds
  | cons (f : Fld) (fs : Flds) : Flds
deriving DecidableEq

/-- One struct field: Go field name, `orm` tag, the anonymous flag, and
the field value. -/
inductive Fld : Type where
  | mk (fname : String) (tag : OrmTag) (anon : Bool) (v : Fv) : Fld
deriving DecidableEq
end

/-- A location inside a receiver value: the struct-field indices walked
to reach it (pointers are dereferenced implicitly). This is the
functional image of the `reflect.Value` addresses the Go map stores. -/
abbrev Path := List Nat

/-- The field map `map[string]reflect.Value`: flattened column name →
location. -/
abbrev RMap := List (String × Path)

/-- Go's `unicode.IsUpper(rune(field.Name[0]))` check. -/
def startsUpper (s : String) : Bool :=
  match s.data with
  | [] => false
  | c :: _ => c.isUpper

/-- fetch/obj.go `getName`: a `-` tag hides the field; a `name(s)`
property renames it; otherwise the Go field name is used when exported
(uppercase initial) and `""` (skipped) when not. -/
def getName (fname : String) (tag : OrmTag) : String :=
  match tag with
  | .ignored => ""
  | .named s => s
  | _ => if startsUpper fname then fname else ""

/-- Key membership in the field map (`_, found := (*ret)[name]`). -/
def containsKey : RMap → String → Bool
  | [], _ => false
  | (k, _) :: rest, name => if k = name then true else containsKey rest name

/-- Field-map lookup (`item, found := items[col]`). -/
def lookupKey : RMap → String → Option Path
  | [], _ => none
  | (k, p) :: rest, name => if k = name then some p else lookupKey rest name

/-- Go map assignment `ret[k] = p`: replace an existing key or append. -/
def insertOver : RMap → String → Path → RMap
  | [], k, p => [(k, p)]
  | (k1, p1) :: rest, k, p =>
    if k1 = k then (k, p) :: rest else (k1, p1) :: insertOver rest k p

/-- The `ret[name+"."+subname] = val` loop over a nested struct's items. -/
def addPrefixed (name : String) : RMap → RMap → RMap
  | ret, [] => ret
  | ret, (sub, p) :: items => addPrefixed name (insertOver ret (name ++ "." ++ sub) p) items

mutual
/-- fetch/obj.go `parseObject` on a value: dereference pointers (a nil
pointer dereferences to an invalid value, hence ErrInvalidKind), require
a struct, and walk its fields. Returns the (possibly mutated) value, the
extended field map, and the error if any. -/
def parseObject : Fv → Path → RMap → Fv × RMap × Option Err
  | .ptr v1, p, ret =>
    let r := parseObject v1 p ret
    (.ptr r.1, r.2.1, r.2.2)
  | .nilPtr z, _, ret => (.nilPtr z, ret, some .invalidKind)
  | .scalar s, _, ret => (.scalar s, ret, some .invalidKind)
  | .strct fs, p, ret =>
    let r := parseFlds fs p 0 ret
    (.strct r.1, r.2.1, r.2.2)

/-- The field loop of `parseObject`: on an error the loop returns at
once and the remaining fields stay untouched. -/
def parseFlds : Flds → Path → Nat → RMap → Flds × RMap × Option Err
  | .nil, _, _, ret => (.nil, ret, none)
  | .cons f rest, p, i, ret =>
    let r := parseFld f (p ++ [i]) ret
    match r.2.2 with
    | some e => (.cons r.1 rest, r.2.1, some e)
    | none =>
      let r2 := parseFlds rest p (i + 1) r.2.1
      (.cons r.1 r2.1, r2.2.1, r2.2.2)

/-- One field of the loop: an anonymous field is parsed into the same
map with its error discarded (`parseObject(vf, ret); continue`); a field
whose `getName` is empty is skipped; any other field is processed by
`parseFldCore`. -/
def parseFld : Fld → Path → RMap → Fld × RMap × Option Err
  | .mk fname tag anon v, p, ret =>
    if anon then
      let r := parseObject v p ret
      (.mk fname tag anon r.1, r.2.1, none)
    else
      let name := getName fname tag
      if name = "" then (.mk fname tag anon v, ret, none)
      else
        let r := parseFldCore v name p ret
        (.mk fname tag anon r.1, r.2.1, r.2.2)

/-- The named-field body: dereference pointers, instantiating nil ones
(`vf.Set(reflect.New(...))`); a struct is parsed into a fresh map whose
entries join `ret` under dotted names; a scalar is a duplicate-name
error when `name` is taken and is bound to its location otherwise. -/
def parseFldCore : Fv → String → Path → RMap → Fv × RMap × Option Err
  | .ptr v1, name, p, ret =>
    let r := parseFldCore v1 name p ret
    (.ptr r.1, r.2.1, r.2.2)
  | .nilPtr z, name, p, ret =>
    let r := parseFldCore z name p ret
    (.ptr r.1, r.2.1, r.2.2)
  | .strct fs, name, p, ret =>
    let r := parseFlds fs p 0 []
    match r.2.2 with
    | some e => (.strct r.1, ret, some e)
    | none => (.strct r.1, addPrefixed name ret r.2.1, none)
  | .scalar s, name, p, ret =>
    if containsKey ret name then (.scalar s, ret, some (.dupField name))
    else (.scalar s, ret ++ [(name, p)], none)
end

mutual
/-- Write a scanned scalar through a field-map location: pointers are
dereferenced implicitly, the struct-field indices are walked, and the
scalar at the end is replaced (`rows.Scan` into the bound address). -/
def setFv : Fv → Path → Scalar → Fv
  | .ptr v, p, s => .ptr (setFv v p s)
  | .nilPtr z, _, _ => .nilPtr z
  | .scalar _, [], s => .scalar s
  | .scalar v, _ :: _, _ => .scalar v
  | .strct fs, [], _ => .strct fs
  | .strct fs, i :: p, s => .strct (setFlds fs i p s)

/-- Index into a field list for `setFv`. -/
def setFlds : Flds → Nat → Path → Scalar → Flds
  | .nil, _, _, _ => .nil
  | .cons f fs, 0, p, s => .cons (setFld f p s) fs
  | .cons f fs, n + 1, p, s => .cons f (setFlds fs n p s)

/-- Step into a field's value for `setFv`. -/
def setFld : Fld → Path → Scalar → Fld
  | .mk n t a v, p, s => .mk n t a (setFv v p s)
end

/-- fetch/obj.go `getColumns`: parse the value into a fresh field map
and bind each driver column either to its location or to a throw-away
placeholder (`none`). -/
def getColumns (v : Fv) (cols : List String) : Fv × Except Err (List (Option Path)) :=
  match parseObject v [] [] with
  | (v1, _, some e) => (v1, .error e)
  | (v1, items, none) => (v1, .ok (cols.map (fun c => lookupKey items c)))

/-- One `rows.Scan(buff...)`: write each row scalar through its bound
location; placeholder targets discard their scalar. -/
def scanRow (v : Fv) (buff : List (Option Path)) (row : List Scalar) : Fv :=
  (buff.zip row).foldl
    (fun acc t =>
      match t.1 with
      | some p => setFv acc p t.2
      | none => acc)
    v

/-- The record type's `AfterFetch` method: it may mutate the record and
may return an error.  `none` models a type that does not implement
`AfterFetcher`. -/
abbrev Hook := Fv → Fv × Option Err

/-- fetch/obj.go `afterFetch`: invoke the hook when the record
implements `AfterFetcher`, surfacing its error. -/
def afterFetchF (h : Option Hook) (v : Fv) : Fv × Option Err :=
  match h with
  | none => (v, none)
  | some f => f v

/-- fetch/obj.go `fetchOnceObj`: bind the columns, scan the first row if
any and run the hook; later rows are never read.  The result carries
the receiver after the call, the returned count, and the error. -/
def fetchOnceObj (h : Option Hook) (cols : List String) (v : Fv)
    (rows : List (List Scalar)) : Fv × Nat × Option Err :=
  match getColumns v cols with
  | (v1, .error e) => (v1, 0, some e)
  | (v1, .ok buff) =>
    match rows with
    | [] => (v1, 0, none)
    | r :: _ =>
      let v2 := scanRow v1 buff r
      let r2 := afterFetchF h v2
      match r2.2 with
      | some e => (r2.1, 0, some e)
      | none => (r2.1, 1, none)

/-- Whether a value is a struct once pointers are stripped; stands for
the `itemType.Kind() == reflect.Struct` check on the receiver's
(dereferenced) static element type. -/
def isStructCore : Fv → Bool
  | .ptr v => isStructCore v
  | .nilPtr z => isStructCore z
  | .strct _ => true
  | .scalar _ => false

/-- The element-type check of `fetchObjToFixedSlice`, read off the first
element (Go checks the static element type; an empty receiver is taken
as struct-typed, the only shape the callers build). -/
def itemTypeStruct : List Fv → Bool
  | [] => true
  | v :: _ => isStructCore v

/-- The `for i := 0; (i < l) && rows.Next(); i++` loop of
`fetchObjToFixedSlice`: bind, scan and run the hook per element/row
pair, stopping at the first error with the remaining elements
untouched. -/
def fixedLoop (h : Option Hook) (cols : List String) :
    List Fv → List (List Scalar) → List Fv × Option Err
  | [], _ => ([], none)
  | es, [] => (es, none)
  | e :: es, r :: rs =>
    match getColumns e cols with
    | (e1, .error err) => (e1 :: es, some err)
    | (e1, .ok buff) =>
      let e2 := scanRow e1 buff r
      let r2 := afterFetchF h e2
      match r2.2 with
      | some err => (r2.1 :: es, some err)
      | none =>
        let r3 := fixedLoop h cols es rs
        (r2.1 :: r3.1, r3.2)

/-- fetch/obj.go `fetchObjToFixedSlice`: reject non-struct element
types; on an error return 0; on success return `l`, the receiver's
length captured before the loop (`return l, nil`). -/
def fetchObjToFixedSlice (h : Option Hook) (cols : List String)
    (val : List Fv) (rows : List (List Scalar)) : List Fv × Nat × Option Err :=
  if itemTypeStruct val then
    match fixedLoop h cols val rows with
    | (val1, some e) => (val1, 0, some e)
    | (val1, none) => (val1, val.length, none)
  else (val, 0, some .invalidKind)

/-- The `for i := 0; rows.Next(); i++` loop of `fetchObjToSlice`: when
the slice is exhausted a fresh `reflect.New(itemType)` element
(`newElem`) is appended; the count follows Go's `count` variable, which
the error returns replace by 0. -/
def sliceGrow (h : Option Hook) (cols : List String) (newElem : Fv) :
    List Fv → List (List Scalar) → List Fv × Nat × Option Err
  | es, [] => (es, 0, none)
  | es, r :: rs =>
    let et := match es with
      | [] => (newElem, ([] : List Fv))
      | e :: rest => (e, rest)
    match getColumns et.1 cols with
    | (e1, .error err) => (e1 :: et.2, 0, some err)
    | (e1, .ok buff) =>
      let e2 := scanRow e1 buff r
      let r2 := afterFetchF h e2
      match r2.2 with
      | some err => (r2.1 :: et.2, 0, some err)
      | none =>
        match sliceGrow h cols newElem et.2 rs with
        | (es2, c, none) => (r2.1 :: es2, c + 1, none)
        | (es2, _, some err) => (r2.1 :: es2, 0, some err)

/-- fetch/obj.go `fetchObjToSlice`: reject non-struct element types
(checked on `newElem`, the image of `reflect.New(itemType)`), then run
the growing loop over all rows. -/
def fetchObjToSlice (h : Option Hook) (cols : List String) (newElem : Fv)
    (val : List Fv) (rows : List (List Scalar)) : List Fv × Nat × Option Err :=
  if isStructCore newElem then sliceGrow h cols newElem val rows
  else (val, 0, some .invalidKind)

/-- The receiver shapes `Object` dispatches on: pointer to slice,
pointer to array, pointer to struct, bare slice, and everything else. -/
inductive Receiver where
  | ptrSlice (es : List Fv)
  | ptrArray (es : List Fv)
  | ptrStruct (v : Fv)
  | sliceV (es : List Fv)
  | other
deriving DecidableEq

/-- fetch/obj.go `Object`: dispatch on the receiver kind; any other kind
is ErrInvalidKind.  `cols` is `rows.Columns()` and `newElem` the element
`reflect.New(itemType)` would create for the slice case. -/
def Object (h : Option Hook) (cols : List String) (newElem : Fv)
    (rows : List (List Scalar)) (obj : Receiver) : Receiver × Nat × Option Err :=
  match obj with
  | .ptrSlice es =>
    let r := fetchObjToSlice h cols newElem es rows
    (.ptrSlice r.1, r.2.1, r.2.2)
  | .ptrArray es =>
    let r := fetchObjToFixedSlice h cols es rows
    (.ptrArray r.1, r.2.1, r.2.2)
  | .ptrStruct v =>
    let r := fetchOnceObj h cols v rows
    (.ptrStruct r.1, r.2.1, r.2.2)
  | .sliceV es =>
    let r := fetchObjToFixedSlice h cols es rows
    (.sliceV r.1, r.2.1, r.2.2)
  | .other => (.other, 0, some .invalidKind)

/-- fetch/obj.go `Obj` (deprecated): `return Object(rows, obj)`. -/
def Obj (h : Option Hook) (cols : List String) (newElem : Fv)
    (obj : Receiver) (rows : List (List Scalar)) : Receiver × Nat × Option Err :=
  Object h cols newElem rows obj

end Fetch

namespace Orm

/-- Example column `a` (plain integer column, Go field `A`). -/
def colA : Column := ⟨"a", "A", false, false, .int 0⟩

/-- Example column `b` (plain integer column, Go field `B`). -/
def colB : Column := ⟨"b", "B", false, false, .int 0⟩

/-- Example column `d` carrying a default value. -/
def colD : Column := ⟨"d", "D", false, true, .int 0⟩

/-- Example auto-increment column `id`. -/
def colAI : Column := ⟨"id", "ID", true, false, .int 0⟩

/-- Example column `u` member of a unique index. -/
def colU : Column := ⟨"u", "U", false, false, .int 0⟩

/-- A double-quoting dialect `Quote` (Postgres/SQLite style). -/
def qQ (s : String) : String := "\"" ++ s ++ "\""

/-- A model whose primary key has the two columns `a`, `b`. -/
def mPK2 : Model := ⟨"t", [colA, colB], [colA, colB], []⟩

/-- A record value with both PK columns non-zero. -/
def rvPK2 : RVal := [("A", .int 1), ("B", .int 2)]

/-- A model whose PK is `a` and that owns the unique index `uq` on `u`. -/
def mUniq : Model := ⟨"t", [colA, colU], [colA], [("uq", [colU])]⟩

/-- A record value whose PK column is zero but whose unique column is
non-zero. -/
def rvUniq : RVal := [("A", .int 0), ("U", .int 9)]

/-- A one-column model with PK `a`. -/
def mUpd : Model := ⟨"t", [colA], [colA], []⟩

/-- A record value that is zero everywhere. -/
def rvZero : RVal := [("A", .int 0)]

/-- The batch-INSERT example model: a default-valued column `d` and a
plain column `b`. -/
def mBatch : Model := ⟨"t", [colD, colB], [], []⟩

/-- A model registry mapping every record type to `mBatch`. -/
def moBatch : String → Model := fun _ => mBatch

/-- Two records of one type: the first retains both columns (both
non-zero), the second holds a zero on the default-valued column `d`. -/
def objsBatch : List BObj :=
  [⟨"T", [("D", .int 1), ("B", .int 2)]⟩, ⟨"T", [("D", .int 0), ("B", .int 3)]⟩]

/-- A single-row INSERT example: zero AI column, zero default column,
non-zero plain column. -/
def mIns : Model := ⟨"t", [colAI, colD, colB], [colAI], []⟩

/-- The record value for the INSERT example. -/
def rvIns : RVal := [("ID", .int 0), ("D", .int 0), ("B", .int 5)]

/-- A schema state whose single integer column is the AI column. -/
def smAI : SModel := ⟨[⟨false, false, true⟩], some 0⟩

/-- A schema state whose single integer column is nullable, no AI. -/
def smNullable : SModel := ⟨[⟨true, false, true⟩], none⟩

end Orm

namespace Fetch

/-- A one-field record (`ID int` with no tag) holding 7. -/
def rec1 : Fv := .strct (.cons (.mk "ID" .noTag false (.scalar (.int 7))) .nil)

/-- A one-field record whose field is tagged `name(id)` and holds 0. -/
def rec2 : Fv := .strct (.cons (.mk "ID" (.named "id") false (.scalar (.int 0))) .nil)

/-- The record `rec2` after the fetch wrote `id = 5` into it. -/
def rec2after : Fv := .strct (.cons (.mk "ID" (.named "id") false (.scalar (.int 5))) .nil)

/-- An `AfterFetch` implementation that always returns an error. -/
def hookErr : Hook := fun v => (v, some .hookFailed)

/-- A record with a nil pointer field `P` (pointee zero: a null
scalar). -/
def recNilPtr : Fv := .strct (.cons (.mk "P" .noTag false (.nilPtr (.scalar .null))) .nil)

/-- The record `recNilPtr` after `parseObject` instantiated the nil pointer. -/
def recNilPtrAfter : Fv := .strct (.cons (.mk "P" .noTag false (.ptr (.scalar .null))) .nil)

end Fetch

namespace Orm

/-- The unique-index loop of sqlbuilder.go `where` yields the first
index (in iteration order) whose columns all qualify. -/
theorem firstKV_first (rval : RVal) (pre : List (String × List Column))
    (nm : String) (ucols : List Column) (post : List (String × List Column))
    (kv : List String × List Val)
    (hpre : ∀ q ∈ pre, getKV rval q.2 = none) (hq : getKV rval ucols = some kv) :
    firstKV rval (pre ++ (nm, ucols) :: post) = some kv := by
  induction pre with
  | nil => simp [firstKV, hq]
  | cons q rest ih =>
    obtain ⟨a, b⟩ := q
    have h1 : getKV rval b = none := hpre (a, b) (by simp)
    simp only [List.cons_append, firstKV, h1]
    exact ih (fun p hp => hpre p (by simp [hp]))

/-- When no unique index qualifies, the loop of sqlbuilder.go `where`
finds nothing. -/
theorem firstKV_none (rval : RVal) (l : List (String × List Column))
    (h : ∀ q ∈ l, getKV rval q.2 = none) : firstKV rval l = none := by
  induction l with
  | nil => simp [firstKV]
  | cons q rest ih =>
    obtain ⟨a, b⟩ := q
    have h1 : getKV rval b = none := h (a, b) (by simp)
    simp only [firstKV, h1]
    exact ih (fun p hp => h p (by simp [hp]))

/-- A column list whose fields are all present but zero never
qualifies under `getKV`. -/
theorem getKV_allZero (rval : RVal) (cols : List Column)
    (h : ∀ col ∈ cols, fieldByName rval col.goName = some col.zero) :
    getKV rval cols = none := by
  cases cols with
  | nil => rfl
  | cons col rest =>
    have h1 : fieldByName rval col.goName = some col.zero := h col (by simp)
    simp [getKV, getKVgo, h1]

/-- Characterization of sqlbuilder.go `insert`'s column walk: with all
fields valid, exactly the columns whose value is non-zero or that are
neither AI nor default-valued are emitted, in order. -/
theorem insertKV_filter (rval : RVal) (cols : List Column)
    (hv : ∀ col ∈ cols, (fieldByName rval col.goName).isSome) :
    insertKV rval cols = .ok (cols.filterMap (fun col =>
      match fieldByName rval col.goName with
      | some v =>
        if v ≠ col.zero ∨ (col.isAI = false ∧ col.hasDefault = false) then
          some (braceWrap col.name, v)
        else none
      | none => none)) := by
  induction cols with
  | nil => rfl
  | cons col rest ih =>
    obtain ⟨v, hv1⟩ := Option.isSome_iff_exists.mp (hv col (by simp))
    have hrest := ih (fun c hc => hv c (by simp [hc]))
    by_cases hskip : v = col.zero ∧ (col.isAI ∨ col.hasDefault)
    · have hneg : ¬ (v ≠ col.zero ∨ (col.isAI = false ∧ col.hasDefault = false)) := by
        rintro (h | ⟨h1, h2⟩)
        · exact h hskip.1
        · rcases hskip.2 with ha | hd
          · simp [h1] at ha
          · simp [h2] at hd
      simp only [insertKV, hv1, List.filterMap_cons]
      rw [if_pos hskip, hrest, if_neg hneg]
    · have hkeep : v ≠ col.zero ∨ (col.isAI = false ∧ col.hasDefault = false) := by
        by_cases hz : v = col.zero
        · have hnd : ¬ (col.isAI ∨ col.hasDefault) := fun hb => hskip ⟨hz, hb⟩
          right
          constructor
          · rcases Bool.eq_false_or_eq_true col.isAI with h1 | h1
            · exact absurd (Or.inl h1) hnd
            · exact h1
          · rcases Bool.eq_false_or_eq_true col.hasDefault with h1 | h1
            · exact absurd (Or.inr h1) hnd
            · exact h1
        · exact Or.inl hz
      simp only [insertKV, hv1, List.filterMap_cons]
      rw [if_neg hskip, hrest, if_pos hkeep]

/-- Characterization of impl.go `insertMult`'s per-record column walk:
the same filter yields the key list and the value list. -/
theorem insertMultKV_filter (rval : RVal) (cols : List Column)
    (hv : ∀ col ∈ cols, (fieldByName rval col.goName).isSome) :
    insertMultKV rval cols = .ok
      (cols.filterMap (fun col =>
        match fieldByName rval col.goName with
        | some v =>
          if v ≠ col.zero ∨ (col.isAI = false ∧ col.hasDefault = false) then some col.name
          else none
        | none => none),
       cols.filterMap (fun col =>
        match fieldByName rval col.goName with
        | some v =>
          if v ≠ col.zero ∨ (col.isAI = false ∧ col.hasDefault = false) then some v
          else none
        | none => none)) := by
  induction cols with
  | nil => rfl
  | cons col rest ih =>
    obtain ⟨v, hv1⟩ := Option.isSome_iff_exists.mp (hv col (by simp))
    have hrest := ih (fun c hc => hv c (by simp [hc]))
    by_cases hskip : v = col.zero ∧ (col.isAI ∨ col.hasDefault)
    · have hneg : ¬ (v ≠ col.zero ∨ (col.isAI = false ∧ col.hasDefault = false)) := by
        rintro (h | ⟨h1, h2⟩)
        · exact h hskip.1
        · rcases hskip.2 with ha | hd
          · simp [h1] at ha
          · simp [h2] at hd
      simp only [insertMultKV, hv1, List.filterMap_cons]
      rw [if_pos hskip, hrest, if_neg hneg, if_neg hneg]
    · have hkeep : v ≠ col.zero ∨ (col.isAI = false ∧ col.hasDefault = false) := by
        by_cases hz : v = col.zero
        · have hnd : ¬ (col.isAI ∨ col.hasDefault) := fun hb => hskip ⟨hz, hb⟩
          right
          constructor
          · rcases Bool.eq_false_or_eq_true col.isAI with h1 | h1
            · exact absurd (Or.inl h1) hnd
            · exact h1
          · rcases Bool.eq_false_or_eq_true col.hasDefault with h1 | h1
            · exact absurd (Or.inr h1) hnd
            · exact h1
        · exact Or.inl hz
      simp only [insertMultKV, hv1, List.filterMap_cons]
      rw [if_neg hskip, hrest, if_pos hkeep, if_pos hkeep]

/-- Characterization of sqlbuilder.go `update`'s column walk: with all
fields valid, exactly the columns named in the allow-list or holding a
non-zero value are set, in order. -/
theorem updateSet_filter (rval : RVal) (allow : List String) (cols : List Column)
    (hv : ∀ col ∈ cols, (fieldByName rval col.goName).isSome) :
    updateSet rval allow cols = .ok (cols.filterMap (fun col =>
      match fieldByName rval col.goName with
      | some v =>
        if inStrSlice col.name allow = true ∨ v ≠ col.zero then some (braceWrap col.name, v)
        else none
      | none => none)) := by
  induction cols with
  | nil => rfl
  | cons col rest ih =>
    obtain ⟨v, hv1⟩ := Option.isSome_iff_exists.mp (hv col (by simp))
    have hrest := ih (fun c hc => hv c (by simp [hc]))
    by_cases hskip : ¬ inStrSlice col.name allow ∧ v = col.zero
    · have hneg : ¬ (inStrSlice col.name allow = true ∨ v ≠ col.zero) := by
        rintro (h | h)
        · exact hskip.1 h
        · exact h hskip.2
      simp only [updateSet, hv1, List.filterMap_cons]
      rw [if_pos hskip, hrest, if_neg hneg]
    · have hkeep : inStrSlice col.name allow = true ∨ v ≠ col.zero := by
        by_cases ha : inStrSlice col.name allow
        · exact Or.inl ha
        · exact Or.inr (fun hz => hskip ⟨ha, hz⟩)
      simp only [updateSet, hv1, List.filterMap_cons]
      rw [if_neg hskip, hrest, if_pos hkeep]

/-- Characterization of impl.go `updateMult`'s column walk: with all
fields valid, exactly the non-zero columns produce a `name=?,` fragment
and a value, in order. -/
theorem updateMultSet_filter (quote : String → String) (rval : RVal) (cols : List Column)
    (hv : ∀ col ∈ cols, (fieldByName rval col.goName).isSome) :
    updateMultSet quote rval cols = .ok
      (cols.filterMap (fun col =>
        match fieldByName rval col.goName with
        | some v => if v ≠ col.zero then some (quote col.name ++ "=?,") else none
        | none => none),
       cols.filterMap (fun col =>
        match fieldByName rval col.goName with
        | some v => if v ≠ col.zero then some v else none
        | none => none)) := by
  induction cols with
  | nil => rfl
  | cons col rest ih =>
    obtain ⟨v, hv1⟩ := Option.isSome_iff_exists.mp (hv col (by simp))
    have hrest := ih (fun c hc => hv c (by simp [hc]))
    by_cases hz : v = col.zero
    · simp [updateMultSet, hv1, hz, List.filterMap_cons, hrest]
    · simp [updateMultSet, hv1, hz, List.filterMap_cons, hrest]

/-- Characterization of `buildInsertManySQL`'s later-record walk: each
key of the first record's column set contributes its value unless the
value is zero on an AI-or-default column, in which case it contributes
nothing. -/
theorem manyRestVals_filter (m : Model) (rval : RVal) (keys : List String)
    (hk : ∀ name ∈ keys, ∃ col, findCol m.cols name = some col ∧
            (fieldByName rval col.goName).isSome) :
    manyRestVals m rval keys = .ok (keys.filterMap (fun name =>
      match findCol m.cols name with
      | some col =>
        match fieldByName rval col.goName with
        | some v => if v = col.zero ∧ (col.isAI ∨ col.hasDefault) then none else some v
        | none => none
      | none => none)) := by
  induction keys with
  | nil => rfl
  | cons name rest ih =>
    obtain ⟨col, hc, hs⟩ := hk name (by simp)
    obtain ⟨v, hv1⟩ := Option.isSome_iff_exists.mp hs
    have hrest := ih (fun n hn => hk n (by simp [hn]))
    by_cases hskip : v = col.zero ∧ (col.isAI ∨ col.hasDefault)
    · simp [manyRestVals, hc, hv1, hskip, List.filterMap_cons, hrest]
    · simp [manyRestVals, hc, hv1, hskip, List.filterMap_cons, hrest]

/-- A nil filterMap result means the function rejects every element. -/
theorem filterMap_nil_all {α β : Type} (f : α → Option β) (l : List α)
    (h : l.filterMap f = []) : ∀ a ∈ l, f a = none := by
  induction l with
  | nil => simp
  | cons x xs ih =>
    rw [List.filterMap_cons] at h
    cases hf : f x with
    | none =>
      rw [hf] at h
      intro a ha
      rcases List.mem_cons.mp ha with rfl | ha2
      · exact hf
      · exact ih h a ha2
    | some b =>
      rw [hf] at h
      exact absurd h (by simp)

/-- C4: for a model whose primary key has the two non-zero columns `a`
and `b`, impl.go `where` emits the two PK equalities with nothing
between them (no AND, invalid SQL), while sqlbuilder.go `where` emits
one condition per PK column and the spec-modelled WhereStmt rendering
joins them with AND. -/
theorem c4_impl_where_missing_and :
    whereImpl qQ mPK2 rvPK2 = .ok (" WHERE \"a\"=?\"b\"=?", [.int 1, .int 2])
    ∧ whereSQLB mPK2 rvPK2 = .ok [("\x7ba\x7d=?", .int 1), ("\x7bb\x7d=?", .int 2)]
    ∧ andJoin [("\x7ba\x7d=?", .int 1), ("\x7bb\x7d=?", .int 2)] =
        "\x7ba\x7d=? AND \x7bb\x7d=?" :=
  ⟨by decide, by decide, by decide⟩

/-- C5: when the primary key does not qualify under `getKV` (a column
absent or zero, or the PK empty), sqlbuilder.go `where` walks the unique
indices in iteration order and uses the first whose columns are all
present and non-zero; when none qualifies, both `where` helpers fail
with the no-where-key error, producing no WHERE clause. -/
theorem c5_unique_fallback (m : Model) (rval : RVal)
    (hpk : getKV rval m.pk = none) :
    (firstKV rval m.uniqueIndexes = none → whereSQLB m rval = .error .noWhereKey)
    ∧ (∀ pre nm ucols post ks vs,
        m.uniqueIndexes = pre ++ (nm, ucols) :: post →
        (∀ q ∈ pre, getKV rval q.2 = none) →
        getKV rval ucols = some (ks, vs) →
        whereSQLB m rval = .ok (whereConds ks vs))
    ∧ (∀ quote, checkCols m.pk rval = false → firstCheck rval m.uniqueIndexes = none →
        whereImpl quote m rval = .error .noWhereKey) := by
  refine ⟨?_, ?_, ?_⟩
  · intro h
    simp [whereSQLB, hpk, h]
  · intro pre nm ucols post ks vs hu hpre hq
    have hfk := firstKV_first rval pre nm ucols post (ks, vs) hpre hq
    simp [whereSQLB, hpk, hu, hfk]
  · intro quote hc hf
    simp [whereImpl, hc, hf]

/-- C5 witness: a record with a zero PK column but a non-zero unique
column makes sqlbuilder.go `where` use the unique index. -/
theorem c5_unique_fallback_witness :
    getKV rvUniq mUniq.pk = none ∧
    whereSQLB mUniq rvUniq = .ok (whereConds ["u"] [.int 9]) := by
  refine ⟨by decide, ?_⟩
  exact (c5_unique_fallback mUniq rvUniq (by decide)).2.1 [] "uq" [colU] [] ["u"]
    [.int 9] rfl (by simp) (by decide)

/-- C6: single-row INSERT (sqlbuilder.go `insert` and impl.go
`insertMult`) includes a (column, placeholder) pair for exactly the
columns whose value differs from the cached zero or that are neither
auto-increment nor default-valued; equivalently, a column is omitted iff
its value is zero and it is AI or has a default. -/
theorem c6_insert_filter (m : Model) (rval : RVal)
    (hv : ∀ col ∈ m.cols, (fieldByName rval col.goName).isSome) :
    insertKV rval m.cols = .ok (m.cols.filterMap (fun col =>
      match fieldByName rval col.goName with
      | some v =>
        if v ≠ col.zero ∨ (col.isAI = false ∧ col.hasDefault = false) then
          some (braceWrap col.name, v)
        else none
      | none => none))
    ∧ insertMultKV rval m.cols = .ok
        (m.cols.filterMap (fun col =>
          match fieldByName rval col.goName with
          | some v =>
            if v ≠ col.zero ∨ (col.isAI = false ∧ col.hasDefault = false) then some col.name
            else none
          | none => none),
         m.cols.filterMap (fun col =>
          match fieldByName rval col.goName with
          | some v =>
            if v ≠ col.zero ∨ (col.isAI = false ∧ col.hasDefault = false) then some v
            else none
          | none => none))
    ∧ (∀ (col : Column) (v : Val),
        ((if v ≠ col.zero ∨ (col.isAI = false ∧ col.hasDefault = false) then
            some (braceWrap col.name, v)
          else none) = none
          ↔ v = col.zero ∧ (col.isAI ∨ col.hasDefault))) := by
  refine ⟨insertKV_filter rval m.cols hv, insertMultKV_filter rval m.cols hv, ?_⟩
  intro col v
  rcases Bool.eq_false_or_eq_true col.isAI with ha | ha <;>
    rcases Bool.eq_false_or_eq_true col.hasDefault with hd | hd <;>
    by_cases hz : v = col.zero <;>
    simp [ha, hd, hz]

/-- C6 witness: a record with zero AI and default columns and one
non-zero plain column inserts exactly the plain column. -/
theorem c6_insert_filter_witness :
    insertKV rvIns mIns.cols = .ok [("\x7bb\x7d", .int 5)] := by
  have h := (c6_insert_filter mIns rvIns (by decide)).1
  rw [h]
  rfl

/-- C7 counterexample: on a record whose only column is zero, update
fails before executing, but with the no-where-key error — not the
no-columns error the claim names. -/
theorem c7_counterexample :
    update mUpd rvZero [] = .error .noWhereKey ∧ Err.noWhereKey ≠ Err.noColumns :=
  ⟨by decide, by decide⟩

/-- C7 amended: UPDATE sets exactly the columns that are non-zero or
named in the allow-list (impl.go `updateMult` has no allow-list and sets
exactly the non-zero columns); when that set is empty every column is
zero, so the keyed WHERE synthesis fails first and the operation returns
the no-where-key error without executing. -/
theorem c7_update_set (m : Model) (rval : RVal) (allow : List String)
    (hv : ∀ col ∈ m.cols, (fieldByName rval col.goName).isSome) :
    updateSet rval allow m.cols = .ok (m.cols.filterMap (fun col =>
      match fieldByName rval col.goName with
      | some v =>
        if inStrSlice col.name allow = true ∨ v ≠ col.zero then some (braceWrap col.name, v)
        else none
      | none => none))
    ∧ (∀ quote, updateMultSet quote rval m.cols = .ok
        (m.cols.filterMap (fun col =>
          match fieldByName rval col.goName with
          | some v => if v ≠ col.zero then some (quote col.name ++ "=?,") else none
          | none => none),
         m.cols.filterMap (fun col =>
          match fieldByName rval col.goName with
          | some v => if v ≠ col.zero then some v else none
          | none => none)))
    ∧ ((∀ col ∈ m.pk, col ∈ m.cols) →
       (∀ q ∈ m.uniqueIndexes, ∀ col ∈ q.2, col ∈ m.cols) →
       m.cols.filterMap (fun col =>
         match fieldByName rval col.goName with
         | some v =>
           if inStrSlice col.name allow = true ∨ v ≠ col.zero then some (braceWrap col.name, v)
           else none
         | none => none) = [] →
       update m rval allow = .error .noWhereKey) := by
  refine ⟨updateSet_filter rval allow m.cols hv,
          fun quote => updateMultSet_filter quote rval m.cols hv, ?_⟩
  intro hpk huniq hemp
  have hall : ∀ col ∈ m.cols, fieldByName rval col.goName = some col.zero := by
    intro col hc
    obtain ⟨v, hv1⟩ := Option.isSome_iff_exists.mp (hv col hc)
    have hf := filterMap_nil_all _ _ hemp col hc
    rw [hv1] at hf
    have hf2 : (if inStrSlice col.name allow = true ∨ v ≠ col.zero then
        some (braceWrap col.name, v) else none) = none := hf
    by_cases hcond : inStrSlice col.name allow = true ∨ v ≠ col.zero
    · rw [if_pos hcond] at hf2
      exact absurd hf2 (by simp)
    · have hz : v = col.zero := by
        by_contra hnz
        exact hcond (Or.inr hnz)
      rw [hv1, hz]
  have h1 : getKV rval m.pk = none :=
    getKV_allZero rval m.pk (fun col hc => hall col (hpk col hc))
  have h2 : firstKV rval m.uniqueIndexes = none :=
    firstKV_none rval _
      (fun q hq => getKV_allZero rval q.2 (fun col hc => hall col (huniq q hq col hc)))
  have hwhere : whereSQLB m rval = .error .noWhereKey := by
    simp [whereSQLB, h1, h2]
  have hset := updateSet_filter rval allow m.cols hv
  rw [hemp] at hset
  simp [update, hset, hwhere]

/-- C7 witness: with a non-zero column the SET list contains exactly
that column. -/
theorem c7_update_set_witness :
    updateSet rvPK2 [] mPK2.cols = .ok
      [("\x7ba\x7d", .int 1), ("\x7bb\x7d", .int 2)] := by
  have h := (c7_update_set mPK2 rvPK2 [] (by decide)).1
  rw [h]
  rfl

/-- C3 counterexample: in the batch INSERT, the second record's zero on
the default-valued column `d` (retained by the first record) is dropped
without a DEFAULT or NULL placeholder, so its values tuple is shorter
than the first record's column set. -/
theorem c3_counterexample :
    buildInsertManySQL moBatch objsBatch =
      .ok ("\x7b#t\x7d", [("\x7bd\x7d", .int 1), ("\x7bb\x7d", .int 2)], [[.int 3]])
    ∧ ([Val.int 3]).length ≠ ([("\x7bd\x7d", Val.int 1), ("\x7bb\x7d", Val.int 2)]).length :=
  ⟨by decide, by decide⟩

/-- C3 amended: for every record after the first, each key of the first
record's column set contributes its value to the tuple unless the value
is zero on an AI-or-default column, in which case it contributes nothing
(no DEFAULT/NULL placeholder), so a tuple never exceeds — and may fall
short of — the key count. -/
theorem c3_batch_zero_skipped (m : Model) (rval : RVal) (keys : List String)
    (hk : ∀ name ∈ keys, ∃ col, findCol m.cols name = some col ∧
            (fieldByName rval col.goName).isSome) :
    manyRestVals m rval keys = .ok (keys.filterMap (fun name =>
      match findCol m.cols name with
      | some col =>
        match fieldByName rval col.goName with
        | some v => if v = col.zero ∧ (col.isAI ∨ col.hasDefault) then none else some v
        | none => none
      | none => none))
    ∧ (∀ vals, manyRestVals m rval keys = .ok vals → vals.length ≤ keys.length) := by
  have h := manyRestVals_filter m rval keys hk
  refine ⟨h, ?_⟩
  intro vals h2
  rw [h] at h2
  have h3 := Except.ok.inj h2
  rw [← h3]
  exact List.length_filterMap_le _ _

/-- C3 witness: the second batch record's tuple keeps only the plain
column's value. -/
theorem c3_batch_zero_skipped_witness :
    manyRestVals mBatch [("D", Val.int 0), ("B", Val.int 3)] ["d", "b"] = .ok [.int 3] := by
  have h := (c3_batch_zero_skipped mBatch [("D", Val.int 0), ("B", Val.int 3)] ["d", "b"] ?_).1
  · rw [h]
    rfl
  · intro name hn
    rcases List.mem_cons.mp hn with rfl | hn2
    · exact ⟨colD, by decide, by decide⟩
    · rcases List.mem_cons.mp hn2 with rfl | hn3
      · exact ⟨colB, by decide, by decide⟩
      · exact absurd hn3 (by simp)

/-- C8: a column cannot be both auto-increment and nullable — declaring
`nullable` on the AI column is a schema error, making an already
nullable column AI is a schema error, and both operations preserve the
invariant that no model has a nullable AI column. -/
theorem c8_ai_not_nullable (m : SModel) (i : Nat) (args : List String) :
    (m.ai = some i → setNullable m i args = .error .schema)
    ∧ (∀ c, m.cols.get? i = some c → c.nullable = true → setAI m i args = .error .schema)
    ∧ (aiNotNullable m → ∀ m2, setNullable m i args = .ok m2 → aiNotNullable m2)
    ∧ (aiNotNullable m → ∀ m2, setAI m i args = .ok m2 → aiNotNullable m2) := by
  refine ⟨?_, ?_, ?_, ?_⟩
  · intro h
    simp [setNullable, h]
  · intro c hc hn
    simp only [setAI, hc]
    by_cases hd : c.hasDefault = true
    · rw [if_pos hd]
    · rw [if_neg hd, if_pos hn]
  · intro hm m2 h2
    by_cases hai : m.ai = some i
    · rw [setNullable, if_pos hai] at h2
      exact absurd h2 (by simp)
    · rw [setNullable, if_neg hai] at h2
      cases hp : parseNullableArg args with
      | error e =>
        rw [hp] at h2
        exact absurd h2 (by simp)
      | ok b =>
        rw [hp] at h2
        cases hg : m.cols.get? i with
        | none =>
          rw [hg] at h2
          exact absurd h2 (by simp)
        | some c =>
          rw [hg] at h2
          have hm2 := (Except.ok.inj h2).symm
          subst hm2
          intro j cj haj hcj
          have haj2 : m.ai = some j := haj
          have hij : i ≠ j := fun he => hai (he ▸ haj2)
          have hcj2 : m.cols.get? j = some cj := by
            rw [← List.get?_set_ne { c with nullable := b } m.cols hij]
            exact hcj
          exact hm j cj haj2 hcj2
  · intro hm m2 h2
    cases hg : m.cols.get? i with
    | none =>
      rw [setAI, hg] at h2
      exact absurd h2 (by simp)
    | some c =>
      simp only [setAI, hg] at h2
      by_cases hd : c.hasDefault = true
      · rw [if_pos hd] at h2
        exact absurd h2 (by simp)
      · rw [if_neg hd] at h2
        by_cases hn : c.nullable = true
        · rw [if_pos hn] at h2
          exact absurd h2 (by simp)
        · rw [if_neg hn] at h2
          by_cases hl : args.length > 2
          · rw [if_pos hl] at h2
            exact absurd h2 (by simp)
          · rw [if_neg hl] at h2
            by_cases ht : c.intType = true
            · rw [if_neg (by simp [ht])] at h2
              have hm2 := (Except.ok.inj h2).symm
              subst hm2
              intro j cj haj hcj
              have hij : i = j := Option.some.inj haj
              subst hij
              have hcj2 : c = cj := Option.some.inj (hg ▸ hcj)
              subst hcj2
              simpa using hn
            · rw [if_pos (by simp [ht])] at h2
              exact absurd h2 (by simp)

/-- C8 witness: declaring nullable on an AI column fails, and making a
nullable column AI fails. -/
theorem c8_ai_not_nullable_witness :
    setNullable smAI 0 ["true"] = .error .schema
    ∧ setAI smNullable 0 [] = .error .schema :=
  ⟨(c8_ai_not_nullable smAI 0 ["true"]).1 rfl,
   (c8_ai_not_nullable smNullable 0 []).2.1 ⟨true, false, true⟩ rfl rfl⟩

end Orm

namespace Fetch

/-- C9: the deprecated Obj delegates to Object with the two arguments
swapped, returning the identical receiver mutation, count and error. -/
theorem c9_obj_delegates (h : Option Hook) (cols : List String) (newElem : Fv)
    (obj : Receiver) (rows : List (List Scalar)) :
    Obj h cols newElem obj rows = Object h cols newElem rows obj := rfl

/-- C1: with a pointer to a length-1 array of records and an empty
result set, Object (via fetchObjToFixedSlice) populates nothing yet
returns count 1 — the receiver length — where min(rows, len) = 0. -/
theorem c1_fixed_count_bug :
    Object none ["id"] (.scalar .null) [] (.ptrArray [rec1]) =
      (.ptrArray [rec1], 1, none)
    ∧ (1 : Nat) ≠ min (List.length ([] : List (List Scalar))) (List.length [rec1]) :=
  ⟨by decide, by decide⟩

/-- C2: with a pointer-to-slice receiver and an AfterFetch hook failing
on the first row, the traversal stops and the error is surfaced, but the
count is 0 even though the row had already been populated into the
receiver (the receiver changed). -/
theorem c2_hook_error_count_bug :
    Object (some hookErr) ["id"] (.ptr rec2) [[.int 5]] (.ptrSlice [.ptr rec2]) =
      (.ptrSlice [.ptr rec2after], 0, some .hookFailed)
    ∧ rec2after ≠ rec2 :=
  ⟨by decide, by decide⟩

/-- C10: with a pointer-to-record receiver holding a nil pointer field
and an empty result set, Object returns count 0 with no error — but the
receiver does not keep all its field values: the nil pointer field is
auto-instantiated while the field map is built. -/
theorem c10_empty_rows_mutates :
    Object none ["x"] (.scalar .null) [] (.ptrStruct recNilPtr) =
      (.ptrStruct recNilPtrAfter, 0, none)
    ∧ recNilPtrAfter ≠ recNilPtr :=
  ⟨by decide, by decide⟩

end Fetch
